import Mathlib

/-!
Verification of the ordered range-scan engine of AtomixDB
(`src/database/range.go`): the B-tree cursor (`BIter`), seek, and the
`Scanner` that drives a range query.

Modelling conventions:
  * byte strings are `List Nat` compared lexicographically (Go `bytes.Compare`);
  * `uint16` arithmetic is mirrored where it matters: Go's `uint16(n)-1` is
    written `(n + 65535) % 65536`;
  * Go code that can panic (slice index out of range, nil dereference) is
    embedded as an `Option`-valued function returning `none` at the fault;
  * the Go node store (`tree.get` by pointer) is a finite association list,
    and loops over pointers take an explicit fuel that exceeds the store
    size, so a well-formed (acyclic) tree never exhausts it;
  * functions of the repository that are not under `src/` (the node-view
    accessors, `nodeLookupLE`, `findIndex`, `GetTableDef`, the key codec,
    `ColIndex`, `Record.Get`, the point lookup `dbGet`) are modelled from
    the spec; each such definition says so in its doc comment.
-/

deriving instance DecidableEq for Except

/-- Byte strings (Go `[]byte`); each entry is one byte. -/
abbrev Bytes := List Nat

/-- Go `bytes.Compare`: lexicographic comparison, -1 / 0 / 1. -/
def bytesCompare : Bytes → Bytes → Int
  | [], [] => 0
  | [], _ :: _ => -1
  | _ :: _, [] => 1
  | a :: as, b :: bs => if a < b then -1 else if b < a then 1 else bytesCompare as bs

/-- Comparison operator constants from `range.go` (small signed integers). -/
def CMP_GE : Int := 3

/-- Go constant `CMP_GT = +2`. -/
def CMP_GT : Int := 2

/-- Go constant `CMP_LT = -2`. -/
def CMP_LT : Int := -2

/-- Go constant `CMP_LE = -3`. -/
def CMP_LE : Int := -3

/-- Go `cmpOK(key, cmp, ref)`: compares the current key with the reference key
under the operator `cmp`.  The Go function panics on any other operator; that
arm is unreachable for the four public constants and is embedded as `false`. -/
def cmpOK (key : Bytes) (cmp : Int) (ref : Bytes) : Bool :=
  let r := bytesCompare key ref
  if cmp = CMP_GE then decide (r ≥ 0)
  else if cmp = CMP_GT then decide (r > 0)
  else if cmp = CMP_LT then decide (r < 0)
  else if cmp = CMP_LE then decide (r ≤ 0)
  else false

/-- Modelled from the spec, section 3 and 6 (the `BNode` byte-page accessors are
not under `src/`): an immutable node view with a type tag, ordered keys, and
per-slot values (leaf) or child pointers (internal). -/
structure BNode where
  isLeaf : Bool
  keys : List Bytes
  vals : List Bytes
  ptrs : List Nat
deriving DecidableEq

/-- Node accessor `nKeys()` (spec section 6 `keyCount`). -/
def BNode.nKeys (n : BNode) : Nat := n.keys.length

/-- Node accessor `getKey(i)` (spec section 6 `keyAt`); `none` when the slot is
out of range (the Go accessor faults there). -/
def BNode.getKey (n : BNode) (i : Nat) : Option Bytes := n.keys.get? i

/-- Node accessor `getVal(i)` (spec section 6 `valueAt`, leaf only). -/
def BNode.getVal (n : BNode) (i : Nat) : Option Bytes := n.vals.get? i

/-- Node accessor `getPtr(i)` (spec section 6 `childPointerAt`, internal only). -/
def BNode.getPtr (n : BNode) (i : Nat) : Option Nat := n.ptrs.get? i

/-- Modelled from the spec, section 6 (`get(pointer) -> NodeView`): the
read-only node store backing a tree.  Pointer `0` is never stored; it marks
the empty tree. -/
structure BTree where
  root : Nat
  store : List (Nat × BNode)
deriving DecidableEq

/-- Node fetch `tree.get(ptr)`; `none` models a dangling pointer (a fault). -/
def BTree.get (t : BTree) (p : Nat) : Option BNode :=
  (t.store.find? (fun q => q.1 == p)).map (fun q => q.2)

/-- Helper for `nodeLookupLE`: the index of the last key that compares
less-or-equal to the search key, scanning left to right (0 when none does). -/
def lookupLELast : List Bytes → Bytes → Nat → Nat → Nat
  | [], _, _, found => found
  | k :: ks, key, i, found =>
    if bytesCompare k key ≤ 0 then lookupLELast ks key (i + 1) i
    else lookupLELast ks key (i + 1) found

/-- Modelled from the spec, section 4.3 (`nodeLookupLE` is not under `src/`):
locate in a node the last slot whose key is byte-wise `<=` the search key, the
"seek-less-or-equal" search; slot 0 when no key qualifies. -/
def nodeLookupLE (node : BNode) (key : Bytes) : Nat :=
  lookupLELast node.keys key 0 0

/-- The B-tree iterator of `range.go`: the owning tree, a root-to-leaf path of
node views, and parallel slot indexes. -/
structure BIter where
  tree : BTree
  path : List BNode
  pos : List Nat
deriving DecidableEq

/-- Go `BIter.Valid()`: false if the path is empty, otherwise the deepest slot
index must be strictly below the leaf's key count.  (The Go nil-data check on
the last node is always satisfied here: every node view in this embedding is
backed by data.) -/
def BIter.Valid (iter : BIter) : Bool :=
  if iter.path.length = 0 then false
  else
    match iter.path.get? (iter.path.length - 1), iter.pos.get? (iter.pos.length - 1) with
    | some lastNode, some p => p < lastNode.nKeys
    | _, _ => false

/-- Go `BIter.Deref()`: the key/value pair at the current leaf slot.  `none`
models the Go faults: indexing `path[len-1]` of an empty path, or a slot out
of the node's range. -/
def BIter.Deref (iter : BIter) : Option (Bytes × Bytes) :=
  match iter.path.get? (iter.path.length - 1), iter.pos.get? (iter.pos.length - 1) with
  | some currentNode, some idx =>
    match currentNode.getKey idx, currentNode.getVal idx with
    | some k, some v => some (k, v)
    | _, _ => none
  | _, _ => none

/-- The trailing block of Go `iterNext`: when a level below exists, re-fetch
the child at the (possibly advanced) slot of `level` and reset the level below
it to slot 0. -/
def iterNextDescend (iter : BIter) (level : Nat) : Option BIter :=
  if level + 1 < iter.pos.length then
    match iter.path.get? level, iter.pos.get? level with
    | some nextNode, some p =>
      match nextNode.getPtr p with
      | some ptr =>
        match iter.tree.get ptr with
        | some kid =>
          some { iter with path := iter.path.set (level + 1) kid,
                           pos := iter.pos.set (level + 1) 0 }
        | none => none
      | none => none
    | _, _ => none
  else some iter

/-- Go `iterNext(iter, level)`.  Mirrors the source exactly: it reads
`path[level]`, advances the slot at `level` when it is not the node's last key
(`pos < uint16(nKeys)-1`, with the uint16 wrap), otherwise recurses toward the
leaves (`level+1`), otherwise returns the iterator unchanged; after advancing,
the descend block resets the level below.  The fuel only bounds the recursion
(depth is at most the path length) and is never exhausted by `BIter.Next`. -/
def iterNextAux : Nat → BIter → Nat → Option BIter
  | 0, _, _ => none
  | fuel + 1, iter, level =>
    match iter.path.get? level, iter.pos.get? level with
    | some currentNode, some p =>
      if p < (currentNode.nKeys + 65535) % 65536 then
        iterNextDescend { iter with pos := iter.pos.set level (p + 1) } level
      else if level < iter.path.length - 1 then
        match iterNextAux fuel iter (level + 1) with
        | some it2 => iterNextDescend it2 level
        | none => none
      else some iter
    | _, _ => none

/-- The trailing block of Go `iterPrev`: when a level below exists, re-fetch
the child at the slot of `level` and reset the level below to the child's last
slot (`kid.nKeys()-1`, with the uint16 wrap). -/
def iterPrevDescend (iter : BIter) (level : Nat) : Option BIter :=
  if level + 1 < iter.pos.length then
    match iter.path.get? level, iter.pos.get? level with
    | some prevNode, some p =>
      match prevNode.getPtr p with
      | some ptr =>
        match iter.tree.get ptr with
        | some kid =>
          some { iter with path := iter.path.set (level + 1) kid,
                           pos := iter.pos.set (level + 1) ((kid.nKeys + 65535) % 65536) }
        | none => none
      | none => none
    | _, _ => none
  else some iter

/-- Go `iterPrev(iter, level)`: decrement the slot at `level` when positive,
otherwise carry into the parent (`level-1`) and, on unwinding, re-descend one
level; at level 0 with slot 0 it returns the iterator unchanged. -/
def iterPrevAux (iter : BIter) : Nat → Option BIter
  | 0 =>
    match iter.pos.get? 0 with
    | some p =>
      if p > 0 then iterPrevDescend { iter with pos := iter.pos.set 0 (p - 1) } 0
      else some iter
    | none => none
  | level + 1 =>
    match iter.pos.get? (level + 1) with
    | some p =>
      if p > 0 then
        iterPrevDescend { iter with pos := iter.pos.set (level + 1) (p - 1) } (level + 1)
      else
        match iterPrevAux iter level with
        | some it2 => iterPrevDescend it2 (level + 1)
        | none => none
    | none => none

/-- Go `BIter.Next()`: `iterNext(iter, 0)` — note the source starts the carry
at the ROOT level.  `none` models the Go fault of indexing an empty path. -/
def BIter.Next (iter : BIter) : Option BIter :=
  iterNextAux (iter.path.length + 1) iter 0

/-- Go `BIter.Prev()`: `iterPrev(iter, len(path)-1)`.  On an empty path the Go
code indexes `pos[-1]` and faults; that is `none` here. -/
def BIter.Prev (iter : BIter) : Option BIter :=
  match iter.path.length with
  | 0 => none
  | n + 1 => iterPrevAux iter n

/-- The loop body of Go `BTree.SeekLE`: descend from a pointer, appending the
node view and its less-or-equal slot to the path, following the child pointer
of internal nodes until a leaf; pointer 0 ends the walk.  The fuel exceeds the
store size, so only a cyclic (malformed) store exhausts it. -/
def seekLELoop : Nat → BTree → Bytes → BIter → Nat → Option BIter
  | 0, _, _, _, _ => none
  | _ + 1, _, _, iter, 0 => some iter
  | fuel + 1, tree, key, iter, ptr =>
    match tree.get ptr with
    | none => none
    | some node =>
      let idx := nodeLookupLE node key
      let iter2 : BIter :=
        { iter with path := iter.path ++ [node], pos := iter.pos ++ [idx] }
      if node.isLeaf then seekLELoop fuel tree key iter2 0
      else
        match node.getPtr idx with
        | some ptr2 => seekLELoop fuel tree key iter2 ptr2
        | none => none

/-- Go `BTree.SeekLE(key)`: descend from the root (`root = 0` is the empty
tree and yields an empty path at once). -/
def BTree.SeekLE (tree : BTree) (key : Bytes) : Option BIter :=
  seekLELoop (tree.store.length + 1) tree key { tree := tree, path := [], pos := [] } tree.root

/-- Go `BTree.Seek(key, cmp)`: a less-or-equal seek, then, when the operator
is not `CMP_LE` and the landing key does not already satisfy it, one corrective
step in the direction of the operator's sign. -/
def BTree.Seek (tree : BTree) (key : Bytes) (cmp : Int) : Option BIter :=
  match tree.SeekLE key with
  | none => none
  | some iter =>
    if cmp ≠ CMP_LE ∧ iter.Valid = true then
      match iter.Deref with
      | none => none
      | some cur =>
        if cmpOK cur.1 cmp key = false then
          (if cmp > 0 then iter.Next else iter.Prev)
        else some iter
    else some iter

/-- Type tag for textual byte-string columns (illustrative numbering; the tag
values are not fixed by the spec). -/
def TYPE_BYTES : Nat := 1

/-- Type tag for fixed-width 64-bit integer columns. -/
def TYPE_INT64 : Nat := 2

/-- Modelled from the spec, section 3 (the value model is not under `src/`):
a typed column value, a tagged union of a 64-bit integer and a byte string. -/
structure Value where
  «Type» : Nat
  I64 : Int
  Str : Bytes
deriving DecidableEq

/-- A row projection: column names paired positionally with values. -/
structure Record where
  Cols : List String
  Vals : List Value
deriving DecidableEq

/-- Modelled from the spec, section 3 (the schema type is not under `src/`):
table name, ordered columns with types, the count of leading primary-key
columns, the primary key-space number, and the secondary indexes with their
key-space numbers. -/
structure TableDef where
  Name : String
  Types : List Nat
  Cols : List String
  PKeys : Nat
  Prefix : Nat
  Indexes : List (List String)
  IndexPrefix : List Nat
deriving DecidableEq

/-- The catalog: table name to definition. -/
abbrev DB := List (String × TableDef)

/-- Modelled from the spec, section 6 (`GetTableDef` is not under `src/`):
look a table definition up by name, `none` when absent. -/
def GetTableDef (db : DB) (table : String) : Option TableDef :=
  (db.find? (fun q => q.1 == table)).map (fun q => q.2)

/-- Big-endian bytes of a 32-bit key-space number (Go serializes the uint32
table prefix in front of every key; `Deref` strips it as `key[4:]`). -/
def u32ToBE (u : Nat) : Bytes :=
  [u / 2 ^ 24 % 256, u / 2 ^ 16 % 256, u / 2 ^ 8 % 256, u % 256]

/-- Big-endian bytes of a 64-bit word. -/
def u64ToBE (u : Nat) : Bytes :=
  [u / 2 ^ 56 % 256, u / 2 ^ 48 % 256, u / 2 ^ 40 % 256, u / 2 ^ 32 % 256,
   u / 2 ^ 24 % 256, u / 2 ^ 16 % 256, u / 2 ^ 8 % 256, u % 256]

/-- Fold big-endian bytes back into a word. -/
def beToU64 (bs : Bytes) : Nat := bs.foldl (fun acc b => acc * 256 + b) 0

/-- Escaping for textual values (spec section 4.1: a terminator or escaping
scheme so no encoding is a prefix of another's continuation): `0x00` and
`0x01` are escaped behind `0x01`. -/
def escapeBytes : Bytes → Bytes
  | [] => []
  | 0 :: rest => 1 :: 1 :: escapeBytes rest
  | 1 :: rest => 1 :: 2 :: escapeBytes rest
  | c :: rest => c :: escapeBytes rest

/-- Modelled from the spec, section 4.1 (the key codec is not under `src/`):
the order-preserving encoding of one value — sign-shifted big-endian for the
fixed-width integer, escaped and `0x00`-terminated for the byte string. -/
def encodeValue (v : Value) : Bytes :=
  if v.«Type» = TYPE_INT64 then
    u64ToBE (((v.I64 + 9223372036854775808) % 18446744073709551616).toNat)
  else escapeBytes v.Str ++ [0]

/-- Concatenated order-preserving encodings of a tuple of values. -/
def encodeValues (vals : List Value) : Bytes := (vals.map encodeValue).flatten

/-- Modelled from the spec, section 4.1 (`encodeKeyPartial` is not under
`src/`): the key-space bytes, then the encoded values; a partial tuple under a
descending-family operator (negative `cmp`) is padded with a maximal
continuation byte so it sorts at-or-after every continuation of the prefix. -/
def encodeKeyPartial (pfx : Nat) (vals : List Value) (tdef : TableDef)
    (index : List String) (cmp : Int) : Bytes :=
  let out := u32ToBE pfx ++ encodeValues vals
  if cmp < 0 ∧ vals.length < index.length then out ++ [255] else out

/-- Inverse of the escaping: decode up to the `0x00` terminator, returning the
decoded string and the remaining input; `none` on malformed input. -/
def unescapeBytes : Bytes → Option (Bytes × Bytes)
  | [] => none
  | 0 :: rest => some ([], rest)
  | 1 :: 1 :: rest => (unescapeBytes rest).map (fun q => (0 :: q.1, q.2))
  | 1 :: 2 :: rest => (unescapeBytes rest).map (fun q => (1 :: q.1, q.2))
  | 1 :: _ => none
  | c :: rest => (unescapeBytes rest).map (fun q => (c :: q.1, q.2))

/-- Decode one value of the given type tag from the head of the input. -/
def decodeOne (t : Nat) (input : Bytes) : Option (Value × Bytes) :=
  if t = TYPE_INT64 then
    if 8 ≤ input.length then
      some (⟨TYPE_INT64, (beToU64 (input.take 8) : Int) - 9223372036854775808, []⟩,
            input.drop 8)
    else none
  else if t = TYPE_BYTES then
    (unescapeBytes input).map (fun q => (⟨TYPE_BYTES, 0, q.1⟩, q.2))
  else none

/-- Decode a sequence of values of the given type tags, returning the leftover
input. -/
def decodeValuesAux : List Nat → Bytes → Option (List Value × Bytes)
  | [], input => some ([], input)
  | t :: ts, input =>
    match decodeOne t input with
    | none => none
    | some (v, rest) =>
      match decodeValuesAux ts rest with
      | none => none
      | some (vs, rest2) => some (v :: vs, rest2)

/-- Modelled from the spec, section 4.1 (`decodeValues` is not under `src/`):
inverse decode into pre-typed slots, consuming the input exactly. -/
def decodeValues (input : Bytes) (types : List Nat) : Option (List Value) :=
  match decodeValuesAux types input with
  | some (vs, []) => some vs
  | _ => none

/-- Modelled from the spec, section 4.2 (`findIndex` is not under `src/`):
match the requested columns against the primary key's column prefix first,
then against each secondary index in declared order, returning the first
exact-or-prefix match (`-1` for the primary key); fail when no index's leading
columns match. -/
def findIndex (tdef : TableDef) (keys : List String) : Except String Int :=
  if keys.isPrefixOf (tdef.Cols.take tdef.PKeys) then Except.ok (-1)
  else
    match tdef.Indexes.findIdx? (fun idx => keys.isPrefixOf idx) with
    | some i => Except.ok (Int.ofNat i)
    | none => Except.error "unindexed query columns"

/-- Modelled from the spec (`ColIndex` is not under `src/`): the position of a
column in the table's column list; `none` when absent (where Go would fault on
the sentinel index). -/
def ColIndex (tdef : TableDef) (col : String) : Option Nat :=
  tdef.Cols.findIdx? (fun c => c == col)

/-- Modelled from the spec (`Record.Get` is not under `src/`): project a value
out of a record by column name; `none` when the column is absent (a nil
pointer in Go, which the caller in `Deref` dereferences). -/
def Record.Get (rec : Record) (col : String) : Option Value :=
  match rec.Cols.findIdx? (fun c => c == col) with
  | some i => rec.Vals.get? i
  | none => none

/-- The `Scanner` of `range.go`: the range request (two bounds with
operators), and the state `dbScan` fills in — resolved table, index number,
encoded boundary bytes, and the live cursor.  The `Option` fields are Go nil
pointers before setup. -/
structure Scanner where
  db : Option DB
  indexNo : Int
  Cmp1 : Int
  Cmp2 : Int
  Key1 : Record
  Key2 : Record
  tdef : Option TableDef
  iter : Option BIter
  keyEnd : Bytes
  keyStart : Bytes
deriving DecidableEq

/-- Go `Scanner.Valid()`: the cursor position must be valid and its key must
satisfy both the end boundary (`Cmp2` against `keyEnd`) and the start boundary
(`Cmp1` against `keyStart`).  `none` models the Go faults (nil iterator, or a
dereference that goes out of bounds). -/
def Scanner.Valid (sc : Scanner) : Option Bool :=
  match sc.iter with
  | none => none
  | some it =>
    if it.Valid = false then some false
    else
      match it.Deref with
      | none => none
      | some kv =>
        some (cmpOK kv.1 sc.Cmp2 sc.keyEnd && cmpOK kv.1 sc.Cmp1 sc.keyStart)

/-- Go `Scanner.Next()`: a no-op when not valid; otherwise step the cursor
forward when the start operator is ascending (`Cmp1 > 0`), backward
otherwise. -/
def Scanner.Next (sc : Scanner) : Option Scanner :=
  match sc.Valid with
  | none => none
  | some false => some sc
  | some true =>
    match sc.iter with
    | none => none
    | some it =>
      match (if sc.Cmp1 > 0 then it.Next else it.Prev) with
      | none => none
      | some it2 => some { sc with iter := some it2 }

/-- Go `Scanner.Deref(rec, tree)`: a no-op when not valid.  Primary-key scan
(`indexNo < 0`): decode the key's columns and the value's columns into a full
row.  Secondary-index scan: decode the index's columns from the cursor key,
build the primary-key record from them, and run the point lookup `dbGet` —
an external collaborator here passed in as `pointGet`, returning Go's
`(ok, err)` pair and the record it (possibly) filled.  A miss only prints;
no error reaches the caller.  `none` models the Go faults (nil dereference,
out-of-range decode). -/
def Scanner.Deref (pointGet : TableDef → Record → Bool × Option String × Record)
    (sc : Scanner) (rec : Record) : Option Record :=
  match sc.Valid with
  | none => none
  | some false => some rec
  | some true =>
    match sc.tdef, sc.iter with
    | some tdef, some it =>
      match it.Deref with
      | none => none
      | some kv =>
        if sc.indexNo < 0 then
          match decodeValues (kv.1.drop 4) (tdef.Types.take tdef.PKeys),
                decodeValues kv.2 (tdef.Types.drop tdef.PKeys) with
          | some pkVals, some restVals =>
            some { Cols := tdef.Cols, Vals := pkVals ++ restVals }
          | _, _ => none
        else
          match tdef.Indexes.get? sc.indexNo.toNat with
          | none => none
          | some index =>
            match index.mapM (fun col => (ColIndex tdef col).bind
                    (fun i => tdef.Types.get? i)) with
            | none => none
            | some itypes =>
              match decodeValues (kv.1.drop 4) itypes with
              | none => none
              | some ival =>
                match (tdef.Cols.take tdef.PKeys).mapM
                        (fun col => Record.Get ⟨index, ival⟩ col) with
                | none => none
                | some pkVals =>
                  some (pointGet tdef ⟨tdef.Cols.take tdef.PKeys, pkVals⟩).2.2
    | _, _ => none

/-- Go `dbScan(db, tdef, req, tree)`: the Go switch admits exactly one
ascending and one descending operator (else "bad range"), resolves the index
from `Key1`'s columns, encodes both bounds, and seeks the cursor to the start
key — only then writing the request's fields.  The result pairs Go's error
return with the request as left after the call; the outer `Option` is a fault
during the seek (never reached on a well-formed tree). -/
def dbScan (db : DB) (tdef : TableDef) (req : Scanner) (tree : BTree) :
    Option (Option String × Scanner) :=
  if (req.Cmp1 > 0 ∧ req.Cmp2 < 0) ∨ (req.Cmp2 > 0 ∧ req.Cmp1 < 0) then
    match findIndex tdef req.Key1.Cols with
    | Except.error e => some (some e, req)
    | Except.ok indexNo =>
      let pair :=
        if indexNo ≥ 0 then
          (tdef.Indexes.getD indexNo.toNat [], tdef.IndexPrefix.getD indexNo.toNat 0)
        else (tdef.Cols.take tdef.PKeys, tdef.Prefix)
      let keyStart := encodeKeyPartial pair.2 req.Key1.Vals tdef pair.1 req.Cmp1
      let keyEnd := encodeKeyPartial pair.2 req.Key2.Vals tdef pair.1 req.Cmp2
      match BTree.Seek tree keyStart req.Cmp1 with
      | none => none
      | some it =>
        some (none, { req with db := some db, tdef := some tdef, indexNo := indexNo,
                               keyStart := keyStart, keyEnd := keyEnd,
                               iter := some it })
  else some (some "bad range", req)

/-- Go `DB.Scan(table, req, tree)`: look the table up, "table not found" when
absent, else delegate to `dbScan`. -/
def DB.Scan (db : DB) (table : String) (req : Scanner) (tree : BTree) :
    Option (Option String × Scanner) :=
  match GetTableDef db table with
  | none => some (some ("table not found: " ++ table), req)
  | some tdef => dbScan db tdef req tree

/-- The drive loop of the spec's testable properties: repeatedly check
`Valid`, collect the dereferenced key, and `Next`, until `Valid` is false (or
the fuel runs out, for runs the code never ends). -/
def scanKeys : Nat → Scanner → List Bytes
  | 0, _ => []
  | fuel + 1, sc =>
    match sc.Valid with
    | some true =>
      match sc.iter with
      | some it =>
        match it.Deref, sc.Next with
        | some kv, some sc2 => kv.1 :: scanKeys fuel sc2
        | _, _ => []
      | none => []
    | _ => []

/-- The scan state `dbScan` leaves in the request once setup succeeded, with
the two encoded boundary byte strings given directly (claims over byte keys
quantify over these): boundaries recorded, cursor seeked to the start key
under `Cmp1` (range.go lines 60 to 63). -/
def mkRangeScan (t : BTree) (cmp1 : Int) (k1 : Bytes) (cmp2 : Int) (k2 : Bytes) : Scanner :=
  { db := none, indexNo := -1, Cmp1 := cmp1, Cmp2 := cmp2,
    Key1 := ⟨[], []⟩, Key2 := ⟨[], []⟩, tdef := none,
    iter := t.Seek k1 cmp1, keyEnd := k2, keyStart := k1 }

/-- A one-leaf tree holding the single key `[1]`. -/
def leaf1 : BNode := { isLeaf := true, keys := [[1]], vals := [[10]], ptrs := [] }

/-- The tree whose root pointer 1 is the leaf `leaf1`. -/
def tree1 : BTree := { root := 1, store := [(1, leaf1)] }

/-- Leaf with keys `[1]`, `[2]`. -/
def leafA : BNode := { isLeaf := true, keys := [[1], [2]], vals := [[11], [12]], ptrs := [] }

/-- Leaf with keys `[3]`, `[4]`. -/
def leafB : BNode := { isLeaf := true, keys := [[3], [4]], vals := [[13], [14]], ptrs := [] }

/-- Leaf with keys `[5]`, `[6]`. -/
def leafC : BNode := { isLeaf := true, keys := [[5], [6]], vals := [[15], [16]], ptrs := [] }

/-- Internal root over `leafA` (pointer 2) and `leafB` (pointer 3); separator
keys are each child's first key. -/
def rootAB : BNode := { isLeaf := false, keys := [[1], [3]], vals := [], ptrs := [2, 3] }

/-- Two-level tree with in-order keys `[1]`, `[2]`, `[3]`, `[4]`. -/
def tree2 : BTree := { root := 1, store := [(1, rootAB), (2, leafA), (3, leafB)] }

/-- Internal root over `leafA`, `leafB`, `leafC` (pointers 2, 3, 4). -/
def rootABC : BNode := { isLeaf := false, keys := [[1], [3], [5]], vals := [], ptrs := [2, 3, 4] }

/-- Two-level tree with in-order keys `[1]` through `[6]`. -/
def tree3 : BTree := { root := 1, store := [(1, rootABC), (2, leafA), (3, leafB), (4, leafC)] }

/-- A valid cursor parked on the last (and only) key of `tree1`. -/
def itLast : BIter := { tree := tree1, path := [leaf1], pos := [0] }

/-- An invalid cursor with an empty path, as `SeekLE` produces on an empty
tree. -/
def emptyIter : BIter := { tree := tree1, path := [], pos := [] }

/-- The empty tree: root pointer 0. -/
def treeEmpty : BTree := { root := 0, store := [] }

/-- An integer column value. -/
def intV (n : Int) : Value := { «Type» := TYPE_INT64, I64 := n, Str := [] }

/-- Schema with primary key `a` and one secondary index on `b`. -/
def tdef6 : TableDef :=
  { Name := "t", Types := [TYPE_INT64, TYPE_INT64], Cols := ["a", "b"], PKeys := 1,
    Prefix := 5, Indexes := [["b"]], IndexPrefix := [6] }

/-- Catalog holding only table `t`. -/
def db6 : DB := [("t", tdef6)]

/-- A descending range request (`Cmp1` in the descending family): `Key1` is
the upper bound over column `a`, `Key2` the lower bound over column `b`. -/
def reqD : Scanner :=
  { db := none, indexNo := 0, Cmp1 := CMP_LE, Cmp2 := CMP_GE,
    Key1 := ⟨["a"], [intV 9]⟩, Key2 := ⟨["b"], [intV 0]⟩,
    tdef := none, iter := none, keyEnd := [], keyStart := [] }

/-- A well-shaped request whose bound columns match no index of `tdef6`. -/
def reqU : Scanner :=
  { db := none, indexNo := 0, Cmp1 := CMP_GE, Cmp2 := CMP_LE,
    Key1 := ⟨["zz"], []⟩, Key2 := ⟨["zz"], []⟩,
    tdef := none, iter := none, keyEnd := [], keyStart := [] }

/-- A request whose two operators are both in the ascending family. -/
def reqB : Scanner :=
  { db := none, indexNo := 0, Cmp1 := CMP_GE, Cmp2 := CMP_GE,
    Key1 := ⟨["a"], []⟩, Key2 := ⟨["a"], []⟩,
    tdef := none, iter := none, keyEnd := [], keyStart := [] }

/-- The expected outcome of `dbScan db6 tdef6 reqD treeEmpty`: no error, index
resolved to the primary key (from `Key1`), both bounds encoded over column
`a`'s key space, cursor seeked into the empty tree. -/
def resD : Option String × Scanner :=
  (none,
   { db := some db6, indexNo := -1, Cmp1 := CMP_LE, Cmp2 := CMP_GE,
     Key1 := ⟨["a"], [intV 9]⟩, Key2 := ⟨["b"], [intV 0]⟩,
     tdef := some tdef6, iter := some { tree := treeEmpty, path := [], pos := [] },
     keyEnd := [0, 0, 0, 5, 128, 0, 0, 0, 0, 0, 0, 0],
     keyStart := [0, 0, 0, 5, 128, 0, 0, 0, 0, 0, 0, 9] })

/-- Schema for the secondary-index dereference scenario: primary key `a`,
secondary index over `(b, a)` with key-space number 2. -/
def tdef9 : TableDef :=
  { Name := "t9", Types := [TYPE_INT64, TYPE_INT64], Cols := ["a", "b"], PKeys := 1,
    Prefix := 1, Indexes := [["b", "a"]], IndexPrefix := [2] }

/-- An index entry's key: index key space 2, then `b = 7`, then `a = 3`. -/
def key9 : Bytes := u32ToBE 2 ++ encodeValues [intV 7, intV 3]

/-- Leaf of the index tree holding the single index entry. -/
def leaf9 : BNode := { isLeaf := true, keys := [key9], vals := [[]], ptrs := [] }

/-- The index tree for the dereference scenario. -/
def tree9 : BTree := { root := 1, store := [(1, leaf9)] }

/-- Cursor parked on the index entry. -/
def it9 : BIter := { tree := tree9, path := [leaf9], pos := [0] }

/-- A secondary-index scanner (indexNo 0) positioned on the index entry, in
range of its boundaries. -/
def sc9 : Scanner :=
  { db := none, indexNo := 0, Cmp1 := CMP_GE, Cmp2 := CMP_LE,
    Key1 := ⟨["b"], []⟩, Key2 := ⟨["b"], []⟩, tdef := some tdef9,
    iter := some it9, keyEnd := key9, keyStart := [] }

/-- A point-lookup collaborator that always misses: `ok = false` with an
error, and the record is returned as the caller built it. -/
def pgMiss : TableDef → Record → Bool × Option String × Record :=
  fun _ r => (false, some "record not found", r)

/-- A scanner holding an invalid (empty-path) cursor. -/
def invalidSc : Scanner :=
  { db := none, indexNo := -1, Cmp1 := CMP_GE, Cmp2 := CMP_LE,
    Key1 := ⟨[], []⟩, Key2 := ⟨[], []⟩, tdef := none,
    iter := some emptyIter, keyEnd := [], keyStart := [] }

/-- Claim C1 (evaluation at the failing input): on the one-key tree `tree1`,
the scan set up with `Cmp1 = CMP_GE` on `lo = [1]` and `Cmp2 = CMP_LE` on
`hi = [1]` does not visit the single in-range key `[1]` exactly once: `Next`
at the last key of the tree returns without moving and the cursor stays valid,
so the Valid/Deref/Next drive loop yields `[1]` forever — here its first three
visits — never reaching `Valid = false`, with duplicates, where the claim says
the visit list is exactly `[[1]]`. -/
theorem scan_loops_forever_on_last_key :
    scanKeys 3 (mkRangeScan tree1 CMP_GE [1] CMP_LE [1]) = [[1], [1], [1]] ∧
    ¬ (scanKeys 3 (mkRangeScan tree1 CMP_GE [1] CMP_LE [1])).Nodup := by decide

/-- Claim C2 (evaluation at the failing input): in `tree2` the in-order keys
are `[1]`, `[2]`, `[3]`, `[4]`; the cursor obtained by seeking `[1]`
dereferences to `[1]`, whose immediate in-order successor is `[2]` — but one
`BIter.Next` lands on `[3]`: the source starts the carry at the root level
(`iterNext(iter, 0)`) and advances the root slot first, skipping the rest of
the current leaf, instead of incrementing the deepest slot. -/
theorem next_skips_in_order_successor :
    (tree2.Seek [1] CMP_GE).bind BIter.Deref = some ([1], [11]) ∧
    ((tree2.Seek [1] CMP_GE).bind BIter.Next).bind BIter.Deref = some ([3], [13]) := by decide

/-- Claim C5 (evaluation at the failing input): on `tree3` (keys `[1]` to
`[6]`) over the range `[[2], [4]]`, the ascending scan yields `[[2], [3]]`
(the root-first carry of `iterNext` skips `[4]`), while the descending scan
yields `[[4], [3], [2]]`; the ascending sequence is not the reverse of the
descending one. -/
theorem descending_scan_not_reverse_of_ascending :
    scanKeys 10 (mkRangeScan tree3 CMP_GE [2] CMP_LE [4]) = [[2], [3]] ∧
    scanKeys 10 (mkRangeScan tree3 CMP_LE [4] CMP_GE [2]) = [[4], [3], [2]] ∧
    ([[2], [3]] : List Bytes) ≠ ([[4], [3], [2]] : List Bytes).reverse := by decide

/-- Claim C7 (evaluation at the failing input): `itLast` sits on the last (and
first) key of `tree1`; the claim says `Next` (resp. `Prev`) must leave the
cursor invalid, but both return with the cursor unchanged and still valid:
`iterNext` and `iterPrev` hit their bare `return` arm without stepping past
the bounds. -/
theorem step_past_bounds_keeps_cursor_valid :
    BIter.Next itLast = some itLast ∧ BIter.Prev itLast = some itLast ∧
    itLast.Valid = true := by decide

/-- Claim C8, counterexample: dereferencing or stepping a cursor whose path is
empty is not a safe no-op — `BIter.Deref` indexes `path[len-1]` of an empty
slice, `BIter.Next` reads `path[0]`, and `BIter.Prev` reads `pos[-1]`, each an
out-of-bounds access (`none` in this embedding, a runtime panic in Go),
refuting the claim for the raw `BIter` operations. -/
theorem biter_ops_fault_on_empty_path :
    BIter.Deref emptyIter = none ∧ BIter.Next emptyIter = none ∧
    BIter.Prev emptyIter = none ∧ emptyIter.Valid = false := by decide

/-- Claim C8, amended: the Scanner-level operations are guarded by `Valid`
and are safe no-ops on an invalid cursor — `Scanner.Next` leaves the scanner
unchanged and `Scanner.Deref` leaves the record unchanged, whatever the
point-lookup collaborator does. -/
theorem scanner_ops_noop_on_invalid (sc : Scanner) (rec : Record)
    (pg : TableDef → Record → Bool × Option String × Record)
    (h : sc.Valid = some false) :
    sc.Next = some sc ∧ Scanner.Deref pg sc rec = some rec := by
  unfold Scanner.Next Scanner.Deref
  rw [h]
  exact ⟨rfl, rfl⟩

/-- Claim C8, witness: the scanner holding the empty-path cursor is invalid,
and both Scanner-level operations are no-ops on it. -/
theorem scanner_ops_noop_on_invalid_witness :
    Scanner.Valid invalidSc = some false ∧
    (Scanner.Next invalidSc = some invalidSc ∧
     Scanner.Deref pgMiss invalidSc ⟨[], []⟩ = some ⟨[], []⟩) :=
  ⟨by decide, scanner_ops_noop_on_invalid invalidSc ⟨[], []⟩ pgMiss (by decide)⟩

/-- Claim C3: every scan-setup failure is surfaced before any scan state
exists — `Scan` on an absent table returns the table-not-found error, `dbScan`
on unindexed bound columns returns the `findIndex` error, `dbScan` on two
same-direction operators returns the bad-range error — and in each case the
request comes back exactly as it went in: no field written, no cursor
constructed (the error returns precede every write in the source). -/
theorem scan_setup_errors_leave_request_untouched
    (db : DB) (table : String) (req1 req2 req3 : Scanner) (tree : BTree)
    (tdef : TableDef) (e : String)
    (h1 : GetTableDef db table = none)
    (h2 : (req2.Cmp1 > 0 ∧ req2.Cmp2 < 0) ∨ (req2.Cmp2 > 0 ∧ req2.Cmp1 < 0))
    (h3 : findIndex tdef req2.Key1.Cols = Except.error e)
    (h4 : ¬ ((req3.Cmp1 > 0 ∧ req3.Cmp2 < 0) ∨ (req3.Cmp2 > 0 ∧ req3.Cmp1 < 0))) :
    DB.Scan db table req1 tree = some (some ("table not found: " ++ table), req1) ∧
    dbScan db tdef req2 tree = some (some e, req2) ∧
    dbScan db tdef req3 tree = some (some "bad range", req3) := by
  refine ⟨?_, ?_, ?_⟩
  · unfold DB.Scan
    rw [h1]
  · unfold dbScan
    rw [if_pos h2, h3]
  · unfold dbScan
    rw [if_neg h4]

/-- Claim C3, witness: the three failure modes at concrete inputs — a missing
table, the unindexed request `reqU`, and the same-direction request `reqB`. -/
theorem scan_setup_errors_witness :
    DB.Scan db6 "missing" reqU treeEmpty = some (some ("table not found: " ++ "missing"), reqU) ∧
    dbScan db6 tdef6 reqU treeEmpty = some (some "unindexed query columns", reqU) ∧
    dbScan db6 tdef6 reqB treeEmpty = some (some "bad range", reqB) :=
  scan_setup_errors_leave_request_untouched db6 "missing" reqU reqU reqB treeEmpty tdef6
    "unindexed query columns" (by decide) (by decide) (by decide) (by decide)

/-- Claim C4: for a scanner whose setup produced a cursor, `Scanner.Valid` is
true exactly when the cursor position is valid and the key there satisfies
both the end boundary (`Cmp2` against `keyEnd`) and the start boundary
(`Cmp1` against `keyStart`). -/
theorem scanner_valid_iff_in_range (sc : Scanner) (it : BIter) (h : sc.iter = some it) :
    sc.Valid = some true ↔
      (it.Valid = true ∧ ∃ k v, it.Deref = some (k, v) ∧
        cmpOK k sc.Cmp2 sc.keyEnd = true ∧ cmpOK k sc.Cmp1 sc.keyStart = true) := by
  unfold Scanner.Valid
  rw [h]
  cases hv : it.Valid with
  | false => simp [hv]
  | true =>
    simp only [hv]
    cases hD : it.Deref with
    | none => simp
    | some kv =>
      cases kv with
      | mk k v => simp [Bool.and_eq_true]

/-- Claim C4, witness: the one-key scan over `tree1` is valid, via the
equivalence at the concrete cursor `itLast`. -/
theorem scanner_valid_iff_witness :
    Scanner.Valid (mkRangeScan tree1 CMP_GE [1] CMP_LE [1]) = some true :=
  (scanner_valid_iff_in_range (mkRangeScan tree1 CMP_GE [1] CMP_LE [1]) itLast
      (by decide)).mpr
    ⟨by decide, [1], [10], by decide, by decide, by decide⟩

/-- Claim C6, counterexample: `reqD` is a descending request (`Cmp1` in the
descending family), so its lower bound is `Key2`, whose columns resolve to
secondary index 0 — yet `dbScan` resolves the primary key (`indexNo = -1`)
because the source always passes `Key1.Cols` to `findIndex`; the claim that
resolution uses the lower bound's columns is false. -/
theorem index_resolution_ignores_lower_bound :
    reqD.Cmp1 = CMP_LE ∧ reqD.Cmp2 = CMP_GE ∧
    (dbScan db6 tdef6 reqD treeEmpty).map (fun q => q.2.indexNo) = some (-1) ∧
    findIndex tdef6 reqD.Key2.Cols = Except.ok 0 := by decide

/-- Claim C6, amended: index resolution always uses the columns of `Key1`
(the start bound), whatever the scan direction — whenever `findIndex` on
`Key1`'s columns answers `i`, a successful `dbScan` records `indexNo = i` and
no error. -/
theorem dbscan_resolves_index_from_key1
    (db : DB) (tdef : TableDef) (req : Scanner) (tree : BTree) (i : Int)
    (res : Option String × Scanner)
    (hshape : (req.Cmp1 > 0 ∧ req.Cmp2 < 0) ∨ (req.Cmp2 > 0 ∧ req.Cmp1 < 0))
    (hidx : findIndex tdef req.Key1.Cols = Except.ok i)
    (hres : dbScan db tdef req tree = some res) :
    res.1 = none ∧ res.2.indexNo = i := by
  unfold dbScan at hres
  rw [if_pos hshape, hidx] at hres
  dsimp only at hres
  split at hres
  · exact absurd hres (by simp)
  · injection hres with h2
    subst h2
    exact ⟨rfl, rfl⟩

/-- Claim C6 (amended), witness: the descending request `reqD` resolves to the
primary key, the answer of `findIndex` on `Key1`'s columns. -/
theorem dbscan_resolves_index_from_key1_witness :
    resD.1 = none ∧ resD.2.indexNo = -1 :=
  dbscan_resolves_index_from_key1 db6 tdef6 reqD treeEmpty (-1) resD
    (by decide) (by decide) (by decide)

/-- Claim C9: at a valid position of a secondary-index scan, `Scanner.Deref`
decodes the index's columns from the cursor key, builds the primary-key record
from them, and hands it to the point lookup; the result is that lookup's
record for every collaborator outcome — including a miss (`ok = false` with an
error), which therefore never surfaces an error to the caller and never
aborts: `Deref` leaves the scanner untouched, so a following `Next` behaves
exactly as it would have without the dereference. -/
theorem index_deref_miss_is_silent
    (pg : TableDef → Record → Bool × Option String × Record)
    (sc : Scanner) (rec : Record) (tdef : TableDef) (it : BIter)
    (kv : Bytes × Bytes) (index : List String) (itypes : List Nat)
    (ival : List Value) (pkVals : List Value)
    (hvalid : sc.Valid = some true)
    (htd : sc.tdef = some tdef)
    (hit : sc.iter = some it)
    (hkv : it.Deref = some kv)
    (hsec : ¬ sc.indexNo < 0)
    (hindex : tdef.Indexes.get? sc.indexNo.toNat = some index)
    (htypes : index.mapM (fun col => (ColIndex tdef col).bind
        (fun j => tdef.Types.get? j)) = some itypes)
    (hdecode : decodeValues (kv.1.drop 4) itypes = some ival)
    (hpk : (tdef.Cols.take tdef.PKeys).mapM
        (fun col => Record.Get ⟨index, ival⟩ col) = some pkVals) :
    Scanner.Deref pg sc rec =
      some (pg tdef ⟨tdef.Cols.take tdef.PKeys, pkVals⟩).2.2 := by
  simp only [Scanner.Deref, hvalid, htd, hit, hkv, if_neg hsec, hindex, htypes,
    hdecode, hpk]

/-- Claim C9, witness: dereferencing the index entry `(b = 7, a = 3)` with the
always-missing point lookup `pgMiss` still succeeds, returning the primary-key
record it built (`a = 3`) with no error. -/
theorem index_deref_miss_witness :
    Scanner.Deref pgMiss sc9 ⟨[], []⟩ = some ⟨["a"], [intV 3]⟩ :=
  index_deref_miss_is_silent pgMiss sc9 ⟨[], []⟩ tdef9 it9 (key9, [])
    ["b", "a"] [TYPE_INT64, TYPE_INT64] [intV 7, intV 3] [intV 3]
    (by decide) (by decide) (by decide) (by decide) (by decide)
    (by decide) (by decide) (by decide) (by decide)

/-- Claim C10: seeking any key under any operator in a tree whose root
pointer is 0 returns, without faulting, a cursor with an empty path, on which
`Valid` is false — and the scanner built over it is immediately exhausted
(`Scanner.Valid` answers false) at the public interface. -/
theorem seek_empty_tree_exhausted (s : List (Nat × BNode)) (key k2 : Bytes) (cmp cmp2 : Int) :
    BTree.Seek { root := 0, store := s } key cmp =
      some { tree := { root := 0, store := s }, path := [], pos := [] } ∧
    BIter.Valid { tree := { root := 0, store := s }, path := [], pos := [] } = false ∧
    Scanner.Valid (mkRangeScan { root := 0, store := s } cmp key cmp2 k2) = some false := by
  refine ⟨?_, by simp [BIter.Valid], ?_⟩
  · simp [BTree.Seek, BTree.SeekLE, seekLELoop, BIter.Valid]
  · simp [Scanner.Valid, mkRangeScan, BTree.Seek, BTree.SeekLE, seekLELoop, BIter.Valid]
